import Mathlib

/-!
Shallow embedding of `src/mutest.go` (package `mutest`), a mutation-testing
engine over Go syntax trees.  The embedding models:

* the fragment of `go/token` / `go/ast` the program manipulates
  (binary and unary expressions inside `if` / `for` conditions);
* `SimpleMutator.Mutate` / `SimpleMutator.Unmutate` (operator swapping,
  double negation), with the `panic(n.Op)` default modelled as `none`;
* the candidate-discovery walk `addSides` / `File.Visit` and the
  `nodeArray` global that `doWork` fills and resets;
* the trial classification logic of `runTest` (exit status, splitting the
  captured output on newlines, the `FAIL` prefix test), with the
  out-of-range index panic modelled as `Except.error`.

Serialization (`printer.Fprint`) is modelled for expressions as a
compositional printer to byte lists, which is how the printer renders
these expression forms.
-/

namespace Mutest

/-- The fragment of `go/token.Token` used by the program: `ILLEGAL` is the
zero value returned for nodes `Mutate` ignores; the rest are the operators
that can occur on binary and unary expressions. -/
inductive Tok where
  | ILLEGAL
  | ADD | SUB | MUL | QUO | REM
  | AND | OR | XOR
  | LAND | LOR
  | EQL | NEQ | LSS | GTR | GEQ | LEQ
  | NOT
  deriving DecidableEq, Repr, Fintype

/-- The fragment of `go/ast` expressions the program manipulates:
identifiers, literals, parenthesised, binary and unary expressions.
Position fields are irrelevant to the modelled behaviour and omitted. -/
inductive Expr where
  | ident (name : String)
  | basicLit (value : String)
  | parenExpr (x : Expr)
  | binaryExpr (x : Expr) (op : Tok) (y : Expr)
  | unaryExpr (op : Tok) (x : Expr)
  deriving DecidableEq, Repr

/-- Statements, as far as the visitor cares: `ast.Walk` visits them in
pre-order and `File.Visit` only acts on `ForStmt` and `IfStmt`.  A
`ForStmt` condition may be absent (`nil` in Go); an `IfStmt` always has a
condition.  `seq`/`skip` stand for statement lists and empty blocks. -/
inductive Stmt where
  | skip
  | seq (s1 s2 : Stmt)
  | exprStmt (e : Expr)
  | forStmt (cond : Option Expr) (body : Stmt)
  | ifStmt (cond : Expr) (body : Stmt) (els : Stmt)
  deriving DecidableEq, Repr

/-- Embeds `SimpleMutator.Mutate` (src/mutest.go:99-131).  The in-place
update of the node is modelled by returning the updated node together
with the `(beforeOp, afterOp)` pair; the `panic(n.Op)` on a binary
operator outside the swap table is modelled as `none`.  A node that is
neither a binary nor a unary expression falls through the type switch
unchanged, returning the zero tokens. -/
def Mutate : Expr → Option (Expr × Tok × Tok)
  | .binaryExpr x op y =>
    match op with
    | .LAND => some (.binaryExpr x .LOR y, .LAND, .LOR)
    | .LOR => some (.binaryExpr x .LAND y, .LOR, .LAND)
    | .EQL => some (.binaryExpr x .NEQ y, .EQL, .NEQ)
    | .NEQ => some (.binaryExpr x .EQL y, .NEQ, .EQL)
    | .GEQ => some (.binaryExpr x .LSS y, .GEQ, .LSS)
    | .LEQ => some (.binaryExpr x .GTR y, .LEQ, .GTR)
    | .GTR => some (.binaryExpr x .LEQ y, .GTR, .LEQ)
    | .LSS => some (.binaryExpr x .GEQ y, .LSS, .GEQ)
    | _ => none
  | .unaryExpr op x => some (.unaryExpr op (.unaryExpr .NOT x), op, op)
  | e => some (e, .ILLEGAL, .ILLEGAL)

/-- Embeds `SimpleMutator.Unmutate` (src/mutest.go:133-135): it simply
calls `Mutate` again on the node, discarding the returned token pair. -/
def Unmutate (e : Expr) : Option Expr := (Mutate e).map Prod.fst

/-- Rendering of the operator tokens, as `go/token.Token.String`. -/
def printTok : Tok → List Char
  | .ILLEGAL => "ILLEGAL".toList
  | .ADD => "+".toList
  | .SUB => "-".toList
  | .MUL => "*".toList
  | .QUO => "/".toList
  | .REM => "%".toList
  | .AND => "&".toList
  | .OR => "|".toList
  | .XOR => "^".toList
  | .LAND => "&&".toList
  | .LOR => "||".toList
  | .EQL => "==".toList
  | .NEQ => "!=".toList
  | .LSS => "<".toList
  | .GTR => ">".toList
  | .GEQ => ">=".toList
  | .LEQ => "<=".toList
  | .NOT => "!".toList

/-- Serialization of an expression to bytes, as `printer.Fprint` renders
these forms: unary operators prefix their operand with no space, binary
operators are surrounded by single spaces, parentheses are printed. -/
def printExpr : Expr → List Char
  | .ident n => n.toList
  | .basicLit v => v.toList
  | .parenExpr x => '(' :: printExpr x ++ [')']
  | .binaryExpr x op y => printExpr x ++ ' ' :: printTok op ++ ' ' :: printExpr y
  | .unaryExpr op x => printTok op ++ printExpr x

/-- Embeds `addSides` (src/mutest.go:137-148): a binary expression has its
operands recursively expanded when its operator is `&&` or `||`, and is
then itself appended; a unary expression is appended; anything else adds
nothing.  The appends to the global `nodeArray` are modelled by returning
the list of appended nodes in order. -/
def addSides : Expr → List Expr
  | .binaryExpr x op y =>
    (if op = .LAND ∨ op = .LOR then addSides x ++ addSides y else [])
      ++ [.binaryExpr x op y]
  | .unaryExpr op x => [.unaryExpr op x]
  | _ => []

/-- Embeds the `*ast.ForStmt` case of `File.Visit`
(src/mutest.go:154-164): a `&&`/`||` binary condition goes through
`addSides`, any other binary condition is appended directly, a unary
condition is appended directly whatever its operator. -/
def visitForCond : Option Expr → List Expr
  | some (.binaryExpr x op y) =>
    if op = .LAND ∨ op = .LOR then addSides (.binaryExpr x op y)
    else [.binaryExpr x op y]
  | some (.unaryExpr op x) => [.unaryExpr op x]
  | _ => []

/-- Embeds the `*ast.IfStmt` case of `File.Visit` (src/mutest.go:165-176):
a `&&`/`||` binary condition goes through `addSides` and is then appended
again unconditionally (there is no `else` before the append, unlike the
`ForStmt` case); a unary condition is appended only when its operator is
`!`. -/
def visitIfCond : Expr → List Expr
  | .binaryExpr x op y =>
    (if op = .LAND ∨ op = .LOR then addSides (.binaryExpr x op y) else [])
      ++ [.binaryExpr x op y]
  | .unaryExpr op x => if op = .NOT then [.unaryExpr op x] else []
  | _ => []

/-- Embeds `ast.Walk(file, ...)` with visitor `File.Visit`: pre-order over
the statement tree, collecting the candidates appended to `nodeArray`.
Conditions contain no statements, so descending into them adds nothing. -/
def scanStmt : Stmt → List Expr
  | .skip => []
  | .seq s1 s2 => scanStmt s1 ++ scanStmt s2
  | .exprStmt _ => []
  | .forStmt cond body => visitForCond cond ++ scanStmt body
  | .ifStmt cond body els => visitIfCond cond ++ scanStmt body ++ scanStmt els

/-- The walk appends to whatever the global `nodeArray`
(src/mutest.go:18) currently holds. -/
def walkNodeArray (nodeArray : List Expr) (t : Stmt) : List Expr :=
  nodeArray ++ scanStmt t

/-- Embeds the scanner phase of `doWork` (src/mutest.go:209, 234, 243):
starting from the current `nodeArray` state it walks the tree, uses the
resulting array as the run's candidate list, and resets `nodeArray` to
empty at the end of the run.  Returns (candidate list used, final
`nodeArray` state). -/
def doWorkScan (nodeArray : List Expr) (t : Stmt) : List Expr × List Expr :=
  (walkNodeArray nodeArray t, [])

/-- Embeds `bytes.Split(output, []byte("\n"))`: the captured output is a
byte sequence, split into the subslices between newlines.  The result
always has one more entry than the number of newlines, so it is never
empty. -/
def splitLines : List Char → List (List Char)
  | [] => [[]]
  | c :: rest =>
    match splitLines rest with
    | [] => [[]]
    | l :: ls => if c = '\n' then [] :: l :: ls else (c :: l) :: ls

/-- Embeds `bytes.HasPrefix(s, p)`. -/
def hasPrefixBytes : List Char → List Char → Bool
  | _, [] => true
  | [], _ :: _ => false
  | c :: s, p :: ps => c = p && hasPrefixBytes s ps

/-- The canonical failure marker `[]byte("FAIL")` of src/mutest.go:61. -/
def failMarker : List Char := "FAIL".toList

/-- Outcome of `cmd.CombinedOutput()` in `runTest` (src/mutest.go:55):
the process ran and exited 0 (`err == nil`), the process ran and exited
non-zero (`err` is an `*exec.ExitError`, with the captured combined
output), or the invocation itself failed to start (any other `err`). -/
inductive ExecResult where
  | success
  | exitError (output : List Char)
  | startError
  deriving DecidableEq, Repr

/-- The per-trial message `runTest` emits for a candidate. -/
inductive TrialReport where
  | survived
  | killed
  | errored (diag : List Char)
  deriving DecidableEq, Repr

/-- Control-flow outcome of one classification: either the trial's
emitted report (`none` when nothing is emitted), or a runtime panic. -/
inductive RunOutcome where
  | report (r : Option TrialReport)
  | panicked
  deriving DecidableEq, Repr

/-- Embeds the classification step of `runTest` (src/mutest.go:56-68).
`panicked` models the runtime panic of `lines[len(lines) - 2]` when the
split output has fewer than two segments; `report none` models the
start-failure branch, whose `fmt.Errorf` call builds an error value and
discards it, emitting nothing. -/
def classify : ExecResult → RunOutcome
  | .success => .report (some .survived)
  | .exitError output =>
    let lines := splitLines output
    if 2 ≤ lines.length then
      let lastLine := lines.getD (lines.length - 2) []
      if hasPrefixBytes lastLine failMarker then .report (some .killed)
      else .report (some (.errored lastLine))
    else .panicked
  | .startError => .report none

/-- Embeds the trial loop of `doWork` (src/mutest.go:234-236): one trial
per candidate, each classified independently; no outcome stops the
loop. -/
def runTrials (results : List ExecResult) : List RunOutcome :=
  results.map classify

/-- The "final non-empty output line" of a captured output, as the spec's
classification mapping describes it (this is the spec's wording, for
comparison with what `classify` actually indexes). -/
def lastNonEmptyLine (output : List Char) : Option (List Char) :=
  ((splitLines output).filter (fun l => l ≠ [])).getLast?

/-- The `lines[len(lines) - 2]` segment `runTest` actually examines, with
the out-of-bounds default made explicit. -/
def penultimateSegment (output : List Char) : List Char :=
  (splitLines output).getD ((splitLines output).length - 2) []

/-- The swap table of `SimpleMutator.Mutate` as the spec enumerates it:
AND↔OR, EQUAL↔NOT-EQUAL, GREATER-OR-EQUAL↔LESS-THAN,
LESS-OR-EQUAL↔GREATER-THAN, GREATER-THAN↔LESS-OR-EQUAL,
LESS-THAN↔GREATER-OR-EQUAL. -/
def swapPairs : List (Tok × Tok) :=
  [(.LAND, .LOR), (.LOR, .LAND), (.EQL, .NEQ), (.NEQ, .EQL),
   (.GEQ, .LSS), (.LEQ, .GTR), (.GTR, .LEQ), (.LSS, .GEQ)]

/-- Structural size of an expression; every node `addSides` collects from
an operand is no larger than the operand, which bounds duplicate
counts. -/
def exprSize : Expr → Nat
  | .ident _ => 1
  | .basicLit _ => 1
  | .parenExpr x => exprSize x + 1
  | .binaryExpr x _ y => exprSize x + exprSize y + 1
  | .unaryExpr _ x => exprSize x + 1

/-- Fixture: comparison expressions `x < y`, `u == v`, `p > q` and the
compound condition `(x < y && u == v) || p > q`, i.e. `a && b || c` with
comparison leaves, parsed left-associatively. -/
def condA : Expr := .binaryExpr (.ident "x") .LSS (.ident "y")

/-- Fixture: the comparison `u == v`. -/
def condB : Expr := .binaryExpr (.ident "u") .EQL (.ident "v")

/-- Fixture: the comparison `p > q`. -/
def condC : Expr := .binaryExpr (.ident "p") .GTR (.ident "q")

/-- Fixture: the compound condition `(condA && condB) || condC`. -/
def compoundCond : Expr := .binaryExpr (.binaryExpr condA .LAND condB) .LOR condC

/-- Fixture: the unary candidate `!x`, as discovered in `if !x { }`. -/
def negCand : Expr := .unaryExpr .NOT (.ident "x")

/-- Fixture: the statement `if a && b { }`. -/
def dupIf : Stmt := .ifStmt (.binaryExpr (.ident "a") .LAND (.ident "b")) .skip .skip

/-- Fixture: a captured harness output `"x\nFAIL"` with no trailing
newline, so the final non-empty line is its last split segment. -/
def c3Out : List Char := "x\nFAIL".toList

/-- Every node `addSides` collects from an expression is structurally no
larger than that expression. -/
theorem mem_addSides_size_le : ∀ {e m : Expr}, m ∈ addSides e → exprSize m ≤ exprSize e := by
  intro e
  induction e with
  | ident n => intro m h; simp [addSides] at h
  | basicLit v => intro m h; simp [addSides] at h
  | parenExpr x ih => intro m h; simp [addSides] at h
  | unaryExpr op x ih =>
    intro m h
    simp [addSides] at h
    subst h
    exact le_refl _
  | binaryExpr x op y ihx ihy =>
    intro m h
    simp only [addSides] at h
    rcases List.mem_append.mp h with h1 | h1
    · split at h1
      · rcases List.mem_append.mp h1 with h2 | h2
        · have := ihx h2
          simp only [exprSize]
          omega
        · have := ihy h2
          simp only [exprSize]
          omega
      · simp at h1
    · simp at h1
      subst h1
      exact le_refl _

/-- An expression strictly larger than `x` never appears among the nodes
`addSides` collects from `x`. -/
theorem not_mem_addSides_of_size_lt {e x : Expr} (h : exprSize x < exprSize e) :
    e ∉ addSides x :=
  fun hm => absurd (mem_addSides_size_le hm) (by omega)

/-- C1: the Mutate/Unmutate inverse law fails on a unary candidate.  The
candidate `!x` is discovered by the scanner from `if !x { }` and
serializes as `!x`; but `Unmutate` re-applies `Mutate`, so after Mutate
(`!!x`) and Unmutate the tree serializes as `!!!x`, not the original
bytes.  This evaluates the code at the failing input of the C1 bug
report. -/
theorem unmutate_not_inverse_on_unary_candidate :
    negCand ∈ scanStmt (.ifStmt negCand .skip .skip) ∧
    printExpr negCand = "!x".toList ∧
    ((Mutate negCand).map Prod.fst >>= Unmutate).map printExpr = some "!!!x".toList ∧
    ((Mutate negCand).map Prod.fst >>= Unmutate).map printExpr ≠ some (printExpr negCand) := by
  decide

/-- C2 (counterexample): the candidate list is not duplicate-free — for
`if a && b { }` the compound condition `a && b` is appended once by
`addSides` and once more by the `IfStmt` case of `Visit`, so it occurs
twice. -/
theorem scan_if_compound_duplicated :
    ¬ (scanStmt dupIf).Nodup ∧
    (scanStmt dupIf).count (.binaryExpr (.ident "a") .LAND (.ident "b")) = 2 := by
  decide

/-- C2 (amended): a compound AND/OR condition of an `if` statement
appears exactly twice in the candidates collected for that condition,
while a compound AND/OR condition of a `for` statement appears exactly
once. -/
theorem compound_if_cond_appears_twice (x y : Expr) (op : Tok)
    (h : op = .LAND ∨ op = .LOR) :
    (visitIfCond (.binaryExpr x op y)).count (.binaryExpr x op y) = 2 ∧
    (visitForCond (some (.binaryExpr x op y))).count (.binaryExpr x op y) = 1 := by
  have hx : (addSides x).count (.binaryExpr x op y) = 0 :=
    List.count_eq_zero.mpr (not_mem_addSides_of_size_lt (by simp [exprSize]; omega))
  have hy : (addSides y).count (.binaryExpr x op y) = 0 :=
    List.count_eq_zero.mpr (not_mem_addSides_of_size_lt (by simp [exprSize]; omega))
  constructor
  · simp [visitIfCond, addSides, h, List.count_append, hx, hy]
  · simp [visitForCond, addSides, h, List.count_append, hx, hy]

/-- C2 (witness): the amended count law at the concrete condition
`a && b`. -/
theorem compound_if_cond_appears_twice_witness :
    (visitIfCond (.binaryExpr (.ident "a") .LAND (.ident "b"))).count
        (.binaryExpr (.ident "a") .LAND (.ident "b")) = 2 ∧
    (visitForCond (some (.binaryExpr (.ident "a") .LAND (.ident "b")))).count
        (.binaryExpr (.ident "a") .LAND (.ident "b")) = 1 :=
  compound_if_cond_appears_twice (.ident "a") (.ident "b") .LAND (Or.inl rfl)

/-- C3 (counterexample): for a failing exit whose captured output is
`"x\nFAIL"`, the final non-empty output line is `FAIL` (which carries the
failure marker), yet the code classifies the trial `Errored` with
diagnostic `x`, because it examines the second-to-last newline-split
segment, not the final non-empty line. -/
theorem classify_not_by_last_nonempty_line :
    lastNonEmptyLine c3Out = some failMarker ∧
    hasPrefixBytes failMarker failMarker = true ∧
    classify (.exitError c3Out) = .report (some (.errored ['x'])) ∧
    classify (.exitError c3Out) ≠ .report (some .killed) := by
  decide

/-- C3 (amended): exit status 0 is classified Survived; a non-zero exit
whose captured output splits into at least two segments is classified
Killed when the second-to-last segment begins with the failure marker
`FAIL`, and Errored with that segment as diagnostic text otherwise. -/
theorem classification_mapping (out : List Char)
    (h : 2 ≤ (splitLines out).length) :
    classify .success = .report (some .survived) ∧
    (hasPrefixBytes (penultimateSegment out) failMarker = true →
      classify (.exitError out) = .report (some .killed)) ∧
    (hasPrefixBytes (penultimateSegment out) failMarker = false →
      classify (.exitError out) = .report (some (.errored (penultimateSegment out)))) := by
  have hc : classify (.exitError out)
      = if hasPrefixBytes (penultimateSegment out) failMarker then RunOutcome.report (some .killed)
        else .report (some (.errored (penultimateSegment out))) := by
    simp [classify, penultimateSegment, h]
  refine ⟨rfl, ?_, ?_⟩ <;> intro hp <;> rw [hc] <;> simp [hp]

/-- C3 (witness): the amended mapping at the concrete outputs
`"ok\nFAIL\n"` (Killed) and `"x\nFAIL"` (Errored). -/
theorem classification_mapping_witness :
    classify (.exitError ("ok\nFAIL\n".toList)) = .report (some .killed) ∧
    classify (.exitError c3Out) = .report (some (.errored ['x'])) :=
  ⟨(classification_mapping ("ok\nFAIL\n".toList) (by decide)).2.1 (by decide),
   (classification_mapping c3Out (by decide)).2.2 (by decide)⟩

/-- C4: Mutate on a binary expression whose operator is in the swap table
replaces it with exactly the paired operator and returns the
before/after pair; a binary operator outside the table is a fatal error
(modelled as `none`, the `panic(n.Op)` branch). -/
theorem mutate_binary_swap_table (x y : Expr) (op : Tok) :
    (∀ op2, (op, op2) ∈ swapPairs →
      Mutate (.binaryExpr x op y) = some (.binaryExpr x op2 y, op, op2)) ∧
    ((∀ op2, (op, op2) ∉ swapPairs) → Mutate (.binaryExpr x op y) = none) := by
  constructor
  · intro op2 h
    cases op <;> simp [swapPairs] at h <;> subst h <;> rfl
  · intro h
    cases op <;>
      first
      | rfl
      | exact (h .LOR (by decide)).elim
      | exact (h .LAND (by decide)).elim
      | exact (h .NEQ (by decide)).elim
      | exact (h .EQL (by decide)).elim
      | exact (h .LSS (by decide)).elim
      | exact (h .GTR (by decide)).elim
      | exact (h .LEQ (by decide)).elim
      | exact (h .GEQ (by decide)).elim

/-- C4 (witness): the swap table at `a && b` (swapped to `a || b`) and
the closed-table rejection at `a + b`. -/
theorem mutate_binary_swap_table_witness :
    Mutate (.binaryExpr (.ident "a") .LAND (.ident "b"))
      = some (.binaryExpr (.ident "a") .LOR (.ident "b"), .LAND, .LOR) ∧
    Mutate (.binaryExpr (.ident "a") .ADD (.ident "b")) = none :=
  ⟨(mutate_binary_swap_table (.ident "a") (.ident "b") .LAND).1 .LOR (by decide),
   (mutate_binary_swap_table (.ident "a") (.ident "b") .ADD).2 (by decide)⟩

/-- C5: scanning the loop condition `(a && b) || c` (comparison leaves)
discovers candidates left-to-right, innermost-first: `a`, `b`, `a && b`,
`c`, then the full compound expression; the `addSides` expansion itself
produces exactly that sequence. -/
theorem discovery_order_compound_condition :
    addSides compoundCond = [condA, condB, .binaryExpr condA .LAND condB, condC, compoundCond] ∧
    scanStmt (.forStmt (some compoundCond) .skip)
      = [condA, condB, .binaryExpr condA .LAND condB, condC, compoundCond] := by
  decide

/-- C6: a unary expression is always added when it is a loop condition,
whatever its operator, but is added as a branch condition exactly when
its operator is boolean negation. -/
theorem unary_condition_asymmetry (op : Tok) (x : Expr) :
    Expr.unaryExpr op x ∈ visitForCond (some (.unaryExpr op x)) ∧
    (Expr.unaryExpr op x ∈ visitIfCond (.unaryExpr op x) ↔ op = .NOT) := by
  constructor
  · simp [visitForCond]
  · constructor
    · intro h
      by_contra hne
      simp [visitIfCond, hne] at h
    · intro h
      subst h
      simp [visitIfCond]

/-- C7: when the harness invocation fails to start, the classification
branch emits no report at all (the `fmt.Errorf` result is discarded),
and the trial loop still proceeds to the next candidate.  This evaluates
the code at the failing input of the C7 bug report. -/
theorem start_failure_emits_nothing :
    classify .startError = .report none ∧
    runTrials [.startError, .exitError ("ok\nFAIL\n".toList), .success]
      = [.report none, .report (some .killed), .report (some .survived)] := by
  decide

/-- C8: the scanner phase of `doWork` resets the `nodeArray` global at
the end of a run, so running it twice on the same unchanged tree — the
second run starting from the state the first run left behind — yields
candidate lists equal in content and order. -/
theorem scan_twice_equal (t : Stmt) :
    (doWorkScan [] t).1 = (doWorkScan (doWorkScan [] t).2 t).1 ∧
    (doWorkScan [] t).2 = [] :=
  ⟨rfl, rfl⟩

/-- C9: when the captured output of a failing harness run splits on
newlines into fewer than two segments, indexing the second-to-last
segment is out of range and `runTest` panics instead of returning a
classification. -/
theorem short_output_panics (out : List Char)
    (h : (splitLines out).length < 2) :
    classify (.exitError out) = .panicked := by
  simp [classify]
  omega

/-- C9 (witness): the panic at the concrete empty output. -/
theorem short_output_panics_witness :
    (splitLines []).length < 2 ∧ classify (.exitError []) = .panicked :=
  ⟨by decide, short_output_panics [] (by decide)⟩

/-- C10: Mutate never rejects a unary expression: whatever its operator,
the operand is wrapped in an additional boolean negation and the
unchanged operator is returned as both the before and the after
descriptor — the closed-table rejection exists only for binary
expressions. -/
theorem mutate_unary_never_rejected (op : Tok) (x : Expr) :
    Mutate (.unaryExpr op x) = some (.unaryExpr op (.unaryExpr .NOT x), op, op) :=
  rfl

end Mutest
